import Mathlib

/-!
Verification of the tokenization-and-batching pipeline of an
embedding/reranking HTTP service (Rust). The source files modelled here are
`src/services/embedding_service.rs`, `src/services/reranking_service.rs`,
`src/services/tokenizer_service.rs`, `src/repositories/triton_client.rs`,
`src/models/mod.rs`, `src/error/mod.rs` and `src/api/health.rs`.

Modelling conventions:
- `i64` token ids are modelled as `Int` (the ids come from `u32` casts, so no
  64-bit wraparound occurs on any modelled path).
- `f32` payloads are modelled by `ℚ` where the code never produces NaN, and by
  the explicit `F32` type (rationals, infinities, NaN) where NaN-behaviour is
  the question.
- The HTTP tokenizer/backend calls are external effects: they are passed in as
  oracle functions, and the pipeline functions additionally return the list of
  `Effect`s they performed, in order, so that "no backend call happened" is a
  provable statement.
- Rust's stable `sort_by` with a comparator that may `unwrap` a failed
  `partial_cmp` is modelled by a stable insertion sort over an
  `Option Ordering`-valued comparator; `none` anywhere during sorting models
  the panic.  For a comparator induced by a total order the stable-sorted
  result is unique, so insertion sort is a faithful denotation of the result.
-/

namespace EmbedRust

/-- The `AppError` enum of `src/error/mod.rs` (payloads are the formatted
message strings). -/
inductive AppError where
  | Validation (msg : String)
  | Inference (msg : String)
  | TritonConnection (msg : String)
  | Tokenization (msg : String)
  | Internal (msg : String)
  | NotReady (msg : String)
deriving DecidableEq, Repr

/-- `TASK_MAPPING` from `src/models/mod.rs`. -/
def TASK_MAPPING : List (String × Int) :=
  [("retrieval.query", 0), ("retrieval.passage", 1), ("separation", 2),
   ("classification", 3), ("text-matching", 4)]

/-- `get_task_id` from `src/models/mod.rs`: first matching entry, default 0. -/
def get_task_id (task : String) : Int :=
  ((TASK_MAPPING.find? (fun p => p.1 = task)).map (fun p => p.2)).getD 0

/-- `EmbeddingModel` domain struct from `src/models/mod.rs` (`Vec<f32>`
vector payload left abstract in the type parameter `V`). -/
structure EmbeddingModel (V : Type) where
  vector : V
  index : Nat
deriving DecidableEq, Repr

/-- `RerankModel` domain struct from `src/models/mod.rs`; the `f32` score
type is the parameter `α` (instantiated at `ℚ` or at the NaN-aware model). -/
structure RerankModel (α : Type) where
  index : Nat
  relevance_score : α
  document : Option String
deriving DecidableEq, Repr

/-! ### Tokenizer service (`src/services/tokenizer_service.rs`)

The HuggingFace tokenizer itself is external: it is the oracle
`encode : String → List Int × List Int` returning (ids, attention mask) for
one text.  Truncation and padding are the code under verification. -/

/-- One row of the first pass of `tokenize_for_embedding` /
`tokenize_for_reranking`: encode, then truncate both ids and mask to
`max_length` when the ids are longer. -/
def encRow (encode : String → List Int × List Int) (max_length : Nat)
    (text : String) : List Int × List Int :=
  let r := encode text
  if r.1.length > max_length then (r.1.take max_length, r.2.take max_length) else r

/-- `batch_max_length`: the longest (truncated) id row, `unwrap_or(0)`. -/
def batchMaxLength (rows : List (List Int × List Int)) : Nat :=
  (rows.map (fun r => r.1.length)).foldr max 0

/-- Second pass of the tokenizers: right-pad ids and mask with zeros by
`bm - ids.len()` when that is positive. -/
def padRow (bm : Nat) (r : List Int × List Int) : List Int × List Int :=
  let padding := bm - r.1.length
  if padding > 0 then (r.1 ++ List.replicate padding 0, r.2 ++ List.replicate padding 0)
  else r

/-- `TokenizerService::tokenize_for_embedding`: truncate every encoded text to
`max_length`, then pad every row to the longest row present in the batch.
(The tokenizer-not-initialized and encode-failure error paths are environment
failures outside the claims; `encode` is total here.) -/
def tokenize_for_embedding (encode : String → List Int × List Int)
    (max_length : Nat) (texts : List String) :
    List (List Int) × List (List Int) :=
  let rows := texts.map (encRow encode max_length)
  let bm := batchMaxLength rows
  ((rows.map (padRow bm)).map (fun r => r.1), (rows.map (padRow bm)).map (fun r => r.2))

/-- `TokenizerService::tokenize_for_reranking`: each document is encoded
jointly with the query as `"{query} [SEP] {doc}"`, then truncated and padded
exactly as on the embedding path. -/
def tokenize_for_reranking (encode : String → List Int × List Int)
    (max_length : Nat) (query : String) (documents : List String) :
    List (List Int) × List (List Int) :=
  let rows := documents.map (fun doc => encRow encode max_length (query ++ " [SEP] " ++ doc))
  let bm := batchMaxLength rows
  ((rows.map (padRow bm)).map (fun r => r.1), (rows.map (padRow bm)).map (fun r => r.2))

/-- `TokenizerService::load_embedding_tokenizer`, configuration-check slice:
with `tokenizer_file` unset it returns the `Tokenization`-class error
`"TOKENIZER_FILE not configured"`; the subsequent file read and write-once
cell installation are I/O outside the model and are collapsed to success. -/
def load_embedding_tokenizer (tokenizer_file : Option String) :
    Except AppError Unit :=
  match tokenizer_file with
  | none => .error (.Tokenization "TOKENIZER_FILE not configured")
  | some _ => .ok ()

/-- `TokenizerService::load_reranker_tokenizer`, configuration-check slice
(same shape as the embedding loader, message
`"RERANKER_TOKENIZER_FILE not configured"`). -/
def load_reranker_tokenizer (reranker_tokenizer_file : Option String) :
    Except AppError Unit :=
  match reranker_tokenizer_file with
  | none => .error (.Tokenization "RERANKER_TOKENIZER_FILE not configured")
  | some _ => .ok ()

/-! ### Batch chunking (`texts.chunks(max_batch)` in
`EmbeddingService::create_embeddings`) -/

/-- Rust's `slice::chunks(k)`: successive sub-lists of length `k`, the last
one possibly shorter.  (Rust panics on `k = 0`; this model then yields
singleton chunks — every claim assumes `k ≥ 1`.) -/
def listChunks (k : Nat) : List α → List (List α)
  | [] => []
  | x :: xs => (x :: xs.take (k - 1)) :: listChunks k (xs.drop (k - 1))
termination_by l => l.length
decreasing_by simp [List.length_drop]; omega

/-! ### Observable effects of one pipeline invocation -/

/-- The externally visible calls a pipeline makes, in order: tokenizer
invocations and backend inference calls. -/
inductive Effect where
  | tokenizeEmbed (texts : List String)
  | backendEmbed (ids mask : List (List Int)) (task_id : Int)
  | tokenizeRerank (query : String) (documents : List String)
  | backendScore (ids mask : List (List Int))
deriving DecidableEq, Repr

/-! ### Embedding pipeline (`src/services/embedding_service.rs`) -/

/-- Loop body of `create_embeddings`: tokenize one chunk, call the backend
(`TritonClient::get_embeddings`, the oracle `backend`), extend the
accumulator; the performed effects are recorded alongside. -/
def embedChunkStep {V : Type} (encode : String → List Int × List Int)
    (backend : List (List Int) → List (List Int) → Int → List V)
    (max_length : Nat) (task_id : Int)
    (acc : List V × List Effect) (chunk : List String) :
    List V × List Effect :=
  let tok := tokenize_for_embedding encode max_length chunk
  let embeddings := backend tok.1 tok.2 task_id
  (acc.1 ++ embeddings,
   acc.2 ++ [Effect.tokenizeEmbed chunk, Effect.backendEmbed tok.1 tok.2 task_id])

/-- `EmbeddingService::create_embeddings`: reject empty input, resolve the
task id, process the input in chunks of `max_batch`, then enumerate the
accumulated vectors into `EmbeddingModel`s with zero-based indices.  Returns
the result together with the ordered list of performed effects. -/
def create_embeddings {V : Type} (encode : String → List Int × List Int)
    (backend : List (List Int) → List (List Int) → Int → List V)
    (max_batch max_length : Nat) (texts : List String) (task : String) :
    Except AppError (List (EmbeddingModel V)) × List Effect :=
  if texts.isEmpty then
    (.error (.Validation "Text input cannot be empty"), [])
  else
    let task_id := get_task_id task
    let r := (listChunks max_batch texts).foldl
      (embedChunkStep encode backend max_length task_id) ([], [])
    (.ok (r.1.enum.map (fun p => { vector := p.2, index := p.1 })), r.2)

/-- `EmbeddingService::is_ready` (identical in `RerankingService`): both
probes are awaited with `?`, so a probe error propagates; on success the
result is the conjunction of the two probes. -/
def is_ready (live_probe ready_probe : Except AppError Bool) :
    Except AppError Bool := do
  let live ← live_probe
  let ready ← ready_probe
  pure (live && ready)

/-- One service's readiness field as computed by `health_check` in
`src/api/health.rs`: `is_ready().await.unwrap_or(false)`. -/
def health_check_ready (live_probe ready_probe : Except AppError Bool) : Bool :=
  match is_ready live_probe ready_probe with
  | .ok b => b
  | .error _ => false

/-! ### The f32 score domain and the sorting comparator
(`src/services/reranking_service.rs`) -/

/-- IEEE `f32` as far as ordering is concerned: NaN, minus infinity, a finite
value (payload modelled exactly by a rational), plus infinity. -/
inductive F32 where
  | nan
  | negInf
  | val (q : ℚ)
  | posInf
deriving DecidableEq, Repr

/-- `f32::partial_cmp`: `none` iff either operand is NaN, otherwise the total
order with `negInf < val _ < posInf`. -/
def F32.pcmp : F32 → F32 → Option Ordering
  | .nan, _ => none
  | _, .nan => none
  | .negInf, .negInf => some .eq
  | .negInf, _ => some .lt
  | _, .negInf => some .gt
  | .posInf, .posInf => some .eq
  | .posInf, _ => some .gt
  | _, .posInf => some .lt
  | .val a, .val b =>
    some (if a < b then .lt else if b < a then .gt else .eq)

/-- `partial_cmp` on the NaN-free rational model of `f32` (used where the
code can never see a NaN): always `some`. -/
def ratPcmp (a b : ℚ) : Option Ordering :=
  some (if a < b then .lt else if b < a then .gt else .eq)

/-- The `sort_by` closure `|a, b| b.relevance_score.partial_cmp(&a.relevance_score).unwrap()`
recast as an `Option`al "a comes no later than b" test: `some true` when the
comparator result is not `Greater`, `none` when `partial_cmp` returns `None`
(the `unwrap` panic). -/
def rerankLe {α : Type} (cmp : α → α → Option Ordering)
    (x y : RerankModel α) : Option Bool :=
  (cmp y.relevance_score x.relevance_score).map
    (fun o => match o with | .gt => false | _ => true)

/-- Stable insertion of `x` into a run under an `Option`al comparator;
`none` models a comparator panic. -/
def insertO {α : Type} (le : α → α → Option Bool) (x : α) :
    List α → Option (List α)
  | [] => some [x]
  | y :: ys =>
    match le x y with
    | none => none
    | some true => some (x :: y :: ys)
    | some false => (insertO le x ys).map (fun r => y :: r)

/-- Stable sort under an `Option`al comparator; `none` models the
`unwrap` panic inside Rust's `sort_by` comparator. -/
def sortO {α : Type} (le : α → α → Option Bool) : List α → Option (List α)
  | [] => some []
  | x :: xs => (sortO le xs).bind (insertO le x)

/-- Outcome of one `rerank_documents` call: a comparator panic, an
`AppError`, or the result list. -/
inductive RerankOutcome (α : Type) where
  | panicked
  | error (e : AppError)
  | ok (results : List (RerankModel α))
deriving DecidableEq, Repr

/-- The `scores.into_iter().enumerate().map(...)` construction of
`rerank_documents`: one `RerankModel` per score, carrying the document text
only when `return_documents` is set. -/
def rerankResults {α : Type} (documents : List String) (scores : List α)
    (return_documents : Bool) : List (RerankModel α) :=
  scores.enum.map (fun p =>
    { index := p.1, relevance_score := p.2,
      document := if return_documents then some (documents.getD p.1 "") else none })

/-- The pure tail of `rerank_documents`: sort the enumerated results
descending by score with the panicking comparator, then `truncate(top_n)`
when `top_n` is given. -/
def rerank_sort_and_truncate {α : Type} (cmp : α → α → Option Ordering)
    (documents : List String) (scores : List α) (top_n : Option Nat)
    (return_documents : Bool) : RerankOutcome α :=
  match sortO (rerankLe cmp) (rerankResults documents scores return_documents) with
  | none => .panicked
  | some sorted =>
    .ok (match top_n with | some n => sorted.take n | none => sorted)

/-- `RerankingService::rerank_documents`: reject empty input, tokenize each
document jointly with the query, obtain one score per row from the backend
(`TritonClient::get_scores`, the oracle `backend`), sort descending by score
with the panicking comparator, and truncate to `top_n` when given.  Returns
the outcome together with the ordered list of performed effects. -/
def rerank_documents {α : Type} (cmp : α → α → Option Ordering)
    (encode : String → List Int × List Int)
    (backend : List (List Int) → List (List Int) → List α)
    (max_length : Nat) (query : String) (documents : List String)
    (top_n : Option Nat) (return_documents : Bool) :
    RerankOutcome α × List Effect :=
  if documents.isEmpty then
    (.error (.Validation "Documents cannot be empty"), [])
  else
    let tok := tokenize_for_reranking encode max_length query documents
    let scores := backend tok.1 tok.2
    (rerank_sort_and_truncate cmp documents scores top_n return_documents,
     [Effect.tokenizeRerank query documents, Effect.backendScore tok.1 tok.2])

/-! ### Triton wire requests (`src/repositories/triton_client.rs`)

Only the request construction is modelled; the HTTP POST and the JSON
response parse are external effects. -/

/-- `TritonInferenceInput`: one named tensor of the wire request (the i64
data points are kept as `Int`; their JSON rendering is external). -/
structure TritonInferenceInput where
  name : String
  shape : List Nat
  datatype : String
  data : List Int
deriving DecidableEq, Repr

/-- `TritonInferRequest` (outputs carry only a name). -/
structure TritonInferRequest where
  inputs : List TritonInferenceInput
  outputs : List String
deriving DecidableEq, Repr

/-- The request built by `TritonClient::get_embeddings`: `input_ids` and
`attention_mask` of shape `[batch_size, seq_length]` (flattened row-major),
plus `task_id` of shape `[batch_size, 1]` with the task id repeated per row;
requested output `"13049"`.  `seq_length` is the length of the first id row
(`input_ids[0].len()`; empty batches never reach this point). -/
def embedding_infer_request (input_ids attention_mask : List (List Int))
    (task_id : Int) : TritonInferRequest :=
  let batch_size := input_ids.length
  let seq_length := (input_ids.headD []).length
  { inputs :=
      [{ name := "input_ids", shape := [batch_size, seq_length],
         datatype := "INT64", data := input_ids.flatten },
       { name := "attention_mask", shape := [batch_size, seq_length],
         datatype := "INT64", data := attention_mask.flatten },
       { name := "task_id", shape := [batch_size, 1],
         datatype := "INT64", data := List.replicate batch_size task_id }],
    outputs := ["13049"] }

/-- The request built by `TritonClient::get_scores`: same two tensors, no
`task_id`, requested output `"scores"`. -/
def scores_infer_request (input_ids attention_mask : List (List Int)) :
    TritonInferRequest :=
  let batch_size := input_ids.length
  let seq_length := (input_ids.headD []).length
  { inputs :=
      [{ name := "input_ids", shape := [batch_size, seq_length],
         datatype := "INT64", data := input_ids.flatten },
       { name := "attention_mask", shape := [batch_size, seq_length],
         datatype := "INT64", data := attention_mask.flatten }],
    outputs := ["scores"] }

/-- A JSON number as produced by the wire deserializer for an `f32` field:
either a finite decimal (a rational) or an overflow saturated to an infinity.
The JSON number grammar (RFC 8259) has no NaN token, and the deserializer
maps out-of-range literals to infinities, so NaN is unrepresentable here. -/
inductive JsonNum where
  | negInf
  | fin (q : ℚ)
  | posInf
deriving DecidableEq, Repr

/-- The `f32` value a decoded JSON number denotes — by construction never
`F32.nan`. -/
def JsonNum.toF32 : JsonNum → F32
  | .negInf => .negInf
  | .fin q => .val q
  | .posInf => .posInf

/-- `partial_cmp` restricted to backend scores that came through the JSON
decoder (`TritonOutputData.data: Vec<f32>`). -/
def jsonPcmp (a b : JsonNum) : Option Ordering :=
  F32.pcmp a.toF32 b.toF32

/-- The descending-by-score order realized by the sort on the NaN-free
rational score model: `a` comes no later than `b` iff `b`'s score is no
greater than `a`'s. -/
def rerankDescRel (a b : RerankModel ℚ) : Prop :=
  b.relevance_score ≤ a.relevance_score

instance : DecidableRel rerankDescRel := fun a b =>
  inferInstanceAs (Decidable (b.relevance_score ≤ a.relevance_score))

instance : IsTotal (RerankModel ℚ) rerankDescRel :=
  ⟨fun a b => le_total b.relevance_score a.relevance_score⟩

instance : IsTrans (RerankModel ℚ) rerankDescRel :=
  ⟨fun _ _ _ h1 h2 => le_trans h2 h1⟩

/-- The total order realized by the sort on JSON-decoded scores: the
comparator answers `some true`. -/
def jsonLeRel (x y : RerankModel JsonNum) : Prop :=
  rerankLe jsonPcmp x y = some true

instance : DecidableRel jsonLeRel := fun _ _ =>
  inferInstanceAs (Decidable (_ = _))

/-- Concrete encoder used by witnesses: `t` encodes to `t.length` id tokens
`7` with an all-ones attention mask. -/
def wEncode (s : String) : List Int × List Int :=
  (List.replicate s.length 7, List.replicate s.length 1)

/-- Concrete embedding backend used by the C1 witness: one zero vector per
id row. -/
def wBackendEmbed : List (List Int) → List (List Int) → Int → List Nat :=
  fun ids _ _ => ids.map (fun _ => 0)

/-- Concrete scoring backend used by the C2 witness: score 1 per id row. -/
def wBackendScore : List (List Int) → List (List Int) → List ℚ :=
  fun ids _ => ids.map (fun _ => 1)

/-! ## Helper lemmas -/

theorem listChunks_flatten {α : Type} (k : Nat) (_hk : 1 ≤ k) :
    ∀ l : List α, (listChunks k l).flatten = l := by
  have H : ∀ (n : Nat) (l : List α), l.length = n → (listChunks k l).flatten = l := by
    intro n
    induction n using Nat.strong_induction_on with
    | _ n ih =>
      intro l hl
      cases l with
      | nil => simp [listChunks]
      | cons x xs =>
        rw [listChunks]
        have hlen : (xs.drop (k - 1)).length < n := by
          simp only [List.length_drop]
          simp only [List.length_cons] at hl
          omega
        simp only [List.flatten_cons, ih _ hlen _ rfl, List.cons_append,
          List.take_append_drop]
  exact fun l => H l.length l rfl

theorem listChunks_chunk_le {α : Type} (k : Nat) (hk : 1 ≤ k) :
    ∀ l : List α, ∀ c ∈ listChunks k l, c.length ≤ k := by
  have H : ∀ (n : Nat) (l : List α), l.length = n →
      ∀ c ∈ listChunks k l, c.length ≤ k := by
    intro n
    induction n using Nat.strong_induction_on with
    | _ n ih =>
      intro l hl
      cases l with
      | nil => simp [listChunks]
      | cons x xs =>
        rw [listChunks]
        intro c hc
        rcases List.mem_cons.mp hc with h | h
        · subst h
          simp only [List.length_cons, List.length_take]
          omega
        · have hlen : (xs.drop (k - 1)).length < n := by
            simp only [List.length_drop]
            simp only [List.length_cons] at hl
            omega
          exact ih _ hlen _ rfl c h
  exact fun l => H l.length l rfl

theorem tokenize_for_embedding_fst_length (encode : String → List Int × List Int)
    (max_length : Nat) (texts : List String) :
    (tokenize_for_embedding encode max_length texts).1.length = texts.length := by
  simp [tokenize_for_embedding]

theorem embedFold_fst_length {V : Type} (encode : String → List Int × List Int)
    (backend : List (List Int) → List (List Int) → Int → List V)
    (max_length : Nat) (task_id : Int)
    (hB : ∀ ids mask t, (backend ids mask t).length = ids.length) :
    ∀ (chunks : List (List String)) (acc : List V × List Effect),
      ((chunks.foldl (embedChunkStep encode backend max_length task_id) acc).1).length
        = acc.1.length + (chunks.map List.length).sum := by
  intro chunks
  induction chunks with
  | nil => intro acc; simp
  | cons c cs ih =>
    intro acc
    simp only [List.foldl_cons, List.map_cons, List.sum_cons, ih]
    simp [embedChunkStep, hB, tokenize_for_embedding_fst_length]
    omega

theorem encRow_fst_length (encode : String → List Int × List Int)
    (m : Nat) (t : String) :
    (encRow encode m t).1.length = min ((encode t).1.length) m := by
  simp only [encRow]
  split_ifs with h
  · simp only [List.length_take]
    omega
  · omega

theorem encRow_snd_length (encode : String → List Int × List Int)
    (m : Nat) (t : String)
    (hm : (encode t).2.length = (encode t).1.length) :
    (encRow encode m t).2.length = (encRow encode m t).1.length := by
  simp only [encRow]
  split_ifs with h
  · simp only [List.length_take]
    omega
  · exact hm

theorem le_batchMaxLength :
    ∀ (rows : List (List Int × List Int)), ∀ r ∈ rows,
      r.1.length ≤ batchMaxLength rows := by
  intro rows
  induction rows with
  | nil => simp
  | cons a as ih =>
    intro r hr
    simp only [batchMaxLength, List.map_cons, List.foldr_cons]
    rcases List.mem_cons.mp hr with h | h
    · subst h; omega
    · have := ih r h
      simp only [batchMaxLength] at this
      omega

theorem padRow_fst_eq (bm : Nat) (r : List Int × List Int) :
    (padRow bm r).1 = r.1 ++ List.replicate (bm - r.1.length) 0 := by
  simp only [padRow]
  split_ifs with h
  · rfl
  · have h0 : bm - r.1.length = 0 := by omega
    simp [h0]

theorem padRow_snd_eq (bm : Nat) (r : List Int × List Int) :
    (padRow bm r).2 = r.2 ++ List.replicate (bm - r.1.length) 0 := by
  simp only [padRow]
  split_ifs with h
  · rfl
  · have h0 : bm - r.1.length = 0 := by omega
    simp [h0]

theorem padRow_fst_length (bm : Nat) (r : List Int × List Int)
    (h : r.1.length ≤ bm) : (padRow bm r).1.length = bm := by
  rw [padRow_fst_eq]
  simp only [List.length_append, List.length_replicate]
  omega

theorem padRow_snd_length (bm : Nat) (r : List Int × List Int)
    (h : r.1.length ≤ bm) (hm : r.2.length = r.1.length) :
    (padRow bm r).2.length = bm := by
  rw [padRow_snd_eq]
  simp only [List.length_append, List.length_replicate]
  omega

theorem tokenize_embed_fst_row_len (encode : String → List Int × List Int)
    (m : Nat) (texts : List String) :
    ∀ row ∈ (tokenize_for_embedding encode m texts).1,
      row.length = batchMaxLength (texts.map (encRow encode m)) := by
  intro row hrow
  simp only [tokenize_for_embedding, List.mem_map] at hrow
  obtain ⟨p, hp, rfl⟩ := hrow
  obtain ⟨r, ⟨t, ht, rfl⟩, rfl⟩ := hp
  exact padRow_fst_length _ _
    (le_batchMaxLength _ _ (List.mem_map_of_mem _ ht))

theorem tokenize_embed_snd_row_len (encode : String → List Int × List Int)
    (m : Nat) (texts : List String)
    (hmask : ∀ t, (encode t).2.length = (encode t).1.length) :
    ∀ row ∈ (tokenize_for_embedding encode m texts).2,
      row.length = batchMaxLength (texts.map (encRow encode m)) := by
  intro row hrow
  simp only [tokenize_for_embedding, List.mem_map] at hrow
  obtain ⟨p, hp, rfl⟩ := hrow
  obtain ⟨r, ⟨t, ht, rfl⟩, rfl⟩ := hp
  exact padRow_snd_length _ _
    (le_batchMaxLength _ _ (List.mem_map_of_mem _ ht))
    (encRow_snd_length encode m t (hmask t))

theorem tokenize_rerank_eq_embed (encode : String → List Int × List Int)
    (m : Nat) (query : String) (documents : List String) :
    tokenize_for_reranking encode m query documents
      = tokenize_for_embedding encode m
          (documents.map (fun d => query ++ " [SEP] " ++ d)) := by
  simp only [tokenize_for_reranking, tokenize_for_embedding, List.map_map]
  rfl

theorem batchMaxLength_as_min_fold (encode : String → List Int × List Int)
    (m : Nat) (texts : List String) :
    batchMaxLength (texts.map (encRow encode m))
      = (texts.map (fun t => min ((encode t).1.length) m)).foldr max 0 := by
  simp only [batchMaxLength, List.map_map]
  have hfun : ((fun r : List Int × List Int => r.1.length) ∘ encRow encode m)
      = (fun t => min ((encode t).1.length) m) := by
    funext t
    simp [Function.comp, encRow_fst_length encode m t]
  rw [hfun]

theorem insertO_total_eq {α : Type} (le : α → α → Option Bool)
    (r : α → α → Prop) [DecidableRel r]
    (h : ∀ x y, le x y = some (decide (r x y))) (x : α) :
    ∀ l, insertO le x l = some (List.orderedInsert r x l) := by
  intro l
  induction l with
  | nil => rfl
  | cons y ys ih =>
    simp only [insertO, h x y, List.orderedInsert]
    by_cases hr : r x y
    · simp [hr]
    · simp [hr, ih]

theorem sortO_total_eq {α : Type} (le : α → α → Option Bool)
    (r : α → α → Prop) [DecidableRel r]
    (h : ∀ x y, le x y = some (decide (r x y))) :
    ∀ l, sortO le l = some (List.insertionSort r l) := by
  intro l
  induction l with
  | nil => rfl
  | cons x xs ih =>
    simp only [sortO, ih, Option.some_bind]
    exact insertO_total_eq le r h x _

theorem rerankLe_ratPcmp (x y : RerankModel ℚ) :
    rerankLe ratPcmp x y = some (decide (rerankDescRel x y)) := by
  unfold rerankLe ratPcmp rerankDescRel
  by_cases h1 : y.relevance_score < x.relevance_score
  · rw [if_pos h1]
    simp [le_of_lt h1]
  · by_cases h2 : x.relevance_score < y.relevance_score
    · rw [if_neg h1, if_pos h2]
      simp [not_le.mpr h2]
    · rw [if_neg h1, if_neg h2]
      simp [le_of_not_lt h2]

theorem jsonPcmp_isSome (a b : JsonNum) : ∃ o, jsonPcmp a b = some o := by
  cases a <;> cases b <;> exact ⟨_, rfl⟩

theorem rerankLe_jsonPcmp (x y : RerankModel JsonNum) :
    rerankLe jsonPcmp x y = some (decide (jsonLeRel x y)) := by
  obtain ⟨o, ho⟩ := jsonPcmp_isSome y.relevance_score x.relevance_score
  cases o <;> simp [jsonLeRel, rerankLe, ho]

theorem rerank_documents_fst {α : Type} (cmp : α → α → Option Ordering)
    (encode : String → List Int × List Int)
    (backend : List (List Int) → List (List Int) → List α)
    (max_length : Nat) (query : String) (documents : List String)
    (top_n : Option Nat) (return_documents : Bool)
    (h : documents.isEmpty = false) :
    (rerank_documents cmp encode backend max_length query documents
        top_n return_documents).1
      = rerank_sort_and_truncate cmp documents
          (backend (tokenize_for_reranking encode max_length query documents).1
                   (tokenize_for_reranking encode max_length query documents).2)
          top_n return_documents := by
  simp [rerank_documents, h]

theorem rerank_sort_and_truncate_rat (documents : List String)
    (scores : List ℚ) (return_documents : Bool) :
    (rerank_sort_and_truncate ratPcmp documents scores none return_documents
       = .ok (List.insertionSort rerankDescRel
           (rerankResults documents scores return_documents)))
    ∧ ∀ k, rerank_sort_and_truncate ratPcmp documents scores (some k)
        return_documents
       = .ok ((List.insertionSort rerankDescRel
           (rerankResults documents scores return_documents)).take k) := by
  unfold rerank_sort_and_truncate
  rw [sortO_total_eq _ rerankDescRel rerankLe_ratPcmp]
  exact ⟨rfl, fun k => rfl⟩

theorem rerankResults_length {α : Type} (documents : List String)
    (scores : List α) (return_documents : Bool) :
    (rerankResults documents scores return_documents).length = scores.length := by
  simp [rerankResults]

theorem flatten_length_rect {α : Type} (rows : List (List α)) (s : Nat)
    (h : ∀ r ∈ rows, r.length = s) :
    rows.flatten.length = rows.length * s := by
  induction rows with
  | nil => simp
  | cons r rs ih =>
    simp only [List.flatten_cons, List.length_append, List.length_cons]
    rw [h r (by simp), ih (fun q hq => h q (List.mem_cons_of_mem _ hq))]
    ring

/-! ## The claims -/

/-- C4. For every list of items and every chunk size `k ≥ 1`, the chunking
used by the embedding pipeline (`listChunks`, the model of
`texts.chunks(max_batch)` in `create_embeddings`) reconstructs the original
list exactly when its chunks are concatenated in order, and every chunk has
length at most `k`. -/
theorem chunking_reconstructs {α : Type} (k : Nat) (l : List α) (hk : 1 ≤ k) :
    (listChunks k l).flatten = l ∧ ∀ c ∈ listChunks k l, c.length ≤ k :=
  ⟨listChunks_flatten k hk l, listChunks_chunk_le k hk l⟩

theorem chunking_reconstructs_witness :
    1 ≤ 2 ∧ ((listChunks 2 [10, 20, 30]).flatten = [10, 20, 30]
      ∧ ∀ c ∈ listChunks 2 [10, 20, 30], c.length ≤ 2) :=
  ⟨by decide, chunking_reconstructs 2 [10, 20, 30] (by decide)⟩

/-- C3. In `tokenize_for_embedding` (and symmetrically
`tokenize_for_reranking`, which encodes `"{query} [SEP] {doc}"` per
document), every row is truncated to `max_length` and then right-padded to
the longest truncated row present, so every row of the returned id and mask
matrices has the same length, namely the maximum over the inputs of
`min(encoded length, max_length)`.  (`hmask` is the tokenizer-library
invariant that an encoding's attention mask has the same length as its
ids.) -/
theorem tokenize_row_lengths (encode : String → List Int × List Int)
    (max_length : Nat) (texts : List String) (query : String)
    (documents : List String)
    (hmask : ∀ t, (encode t).2.length = (encode t).1.length) :
    (∀ row ∈ (tokenize_for_embedding encode max_length texts).1,
        row.length
          = (texts.map (fun t => min ((encode t).1.length) max_length)).foldr max 0)
    ∧ (∀ row ∈ (tokenize_for_embedding encode max_length texts).2,
        row.length
          = (texts.map (fun t => min ((encode t).1.length) max_length)).foldr max 0)
    ∧ (∀ row ∈ (tokenize_for_reranking encode max_length query documents).1,
        row.length
          = (documents.map (fun d =>
              min ((encode (query ++ " [SEP] " ++ d)).1.length) max_length)).foldr max 0)
    ∧ (∀ row ∈ (tokenize_for_reranking encode max_length query documents).2,
        row.length
          = (documents.map (fun d =>
              min ((encode (query ++ " [SEP] " ++ d)).1.length) max_length)).foldr max 0)
    ∧ ((tokenize_for_embedding encode max_length texts).1
        = texts.map (fun t => (encRow encode max_length t).1
            ++ List.replicate
              (batchMaxLength (texts.map (encRow encode max_length))
                - (encRow encode max_length t).1.length) 0))
    ∧ ((tokenize_for_embedding encode max_length texts).2
        = texts.map (fun t => (encRow encode max_length t).2
            ++ List.replicate
              (batchMaxLength (texts.map (encRow encode max_length))
                - (encRow encode max_length t).1.length) 0)) := by
  refine ⟨?_, ?_, ?_, ?_, ?_, ?_⟩
  · intro row h
    rw [← batchMaxLength_as_min_fold]
    exact tokenize_embed_fst_row_len encode max_length texts row h
  · intro row h
    rw [← batchMaxLength_as_min_fold]
    exact tokenize_embed_snd_row_len encode max_length texts hmask row h
  · intro row h
    rw [tokenize_rerank_eq_embed] at h
    have hr := tokenize_embed_fst_row_len encode max_length
      (documents.map (fun d => query ++ " [SEP] " ++ d)) row h
    rw [batchMaxLength_as_min_fold, List.map_map] at hr
    exact hr
  · intro row h
    rw [tokenize_rerank_eq_embed] at h
    have hr := tokenize_embed_snd_row_len encode max_length
      (documents.map (fun d => query ++ " [SEP] " ++ d)) hmask row h
    rw [batchMaxLength_as_min_fold, List.map_map] at hr
    exact hr
  · simp only [tokenize_for_embedding, List.map_map]
    refine List.map_congr_left fun t ht => ?_
    simp only [Function.comp]
    exact padRow_fst_eq _ _
  · simp only [tokenize_for_embedding, List.map_map]
    refine List.map_congr_left fun t ht => ?_
    simp only [Function.comp]
    exact padRow_snd_eq _ _

theorem tokenize_row_lengths_witness :
    (∀ t, (wEncode t).2.length = (wEncode t).1.length)
    ∧ ((∀ row ∈ (tokenize_for_embedding wEncode 5 ["a", "bbb"]).1,
        row.length
          = ((["a", "bbb"] : List String).map
              (fun t => min ((wEncode t).1.length) 5)).foldr max 0)
    ∧ (∀ row ∈ (tokenize_for_embedding wEncode 5 ["a", "bbb"]).2,
        row.length
          = ((["a", "bbb"] : List String).map
              (fun t => min ((wEncode t).1.length) 5)).foldr max 0)
    ∧ (∀ row ∈ (tokenize_for_reranking wEncode 5 "q" ["dd"]).1,
        row.length
          = ((["dd"] : List String).map (fun d =>
              min ((wEncode ("q" ++ " [SEP] " ++ d)).1.length) 5)).foldr max 0)
    ∧ (∀ row ∈ (tokenize_for_reranking wEncode 5 "q" ["dd"]).2,
        row.length
          = ((["dd"] : List String).map (fun d =>
              min ((wEncode ("q" ++ " [SEP] " ++ d)).1.length) 5)).foldr max 0)
    ∧ ((tokenize_for_embedding wEncode 5 ["a", "bbb"]).1
        = (["a", "bbb"] : List String).map (fun t => (encRow wEncode 5 t).1
            ++ List.replicate
              (batchMaxLength ((["a", "bbb"] : List String).map (encRow wEncode 5))
                - (encRow wEncode 5 t).1.length) 0))
    ∧ ((tokenize_for_embedding wEncode 5 ["a", "bbb"]).2
        = (["a", "bbb"] : List String).map (fun t => (encRow wEncode 5 t).2
            ++ List.replicate
              (batchMaxLength ((["a", "bbb"] : List String).map (encRow wEncode 5))
                - (encRow wEncode 5 t).1.length) 0))) :=
  ⟨fun t => by simp [wEncode],
   tokenize_row_lengths wEncode 5 ["a", "bbb"] "q" ["dd"]
     (fun t => by simp [wEncode])⟩

/-- C1. For every non-empty text list and task, if each backend call returns
one embedding vector per row of the chunk it was given, then
`create_embeddings` succeeds with exactly one `EmbeddingModel` per input
text, whose `index` fields are exactly `0, 1, ..., N-1` in input order —
for every chunk size `max_batch ≥ 1`, i.e. wherever the chunk boundaries
fall. -/
theorem create_embeddings_indices {V : Type}
    (encode : String → List Int × List Int)
    (backend : List (List Int) → List (List Int) → Int → List V)
    (max_batch max_length : Nat) (texts : List String) (task : String)
    (hne : texts ≠ []) (hk : 1 ≤ max_batch)
    (hB : ∀ ids mask t, (backend ids mask t).length = ids.length) :
    ∃ ms, (create_embeddings encode backend max_batch max_length texts task).1
        = .ok ms
      ∧ ms.length = texts.length
      ∧ ms.map (fun m => m.index) = List.range texts.length := by
  have hnemp : texts.isEmpty = false := List.isEmpty_eq_false.mpr hne
  have hsum : ((listChunks max_batch texts).map List.length).sum = texts.length := by
    calc ((listChunks max_batch texts).map List.length).sum
        = (listChunks max_batch texts).flatten.length :=
          (List.length_flatten _).symm
      _ = texts.length := by rw [listChunks_flatten max_batch hk texts]
  have hfold := embedFold_fst_length encode backend max_length
    (get_task_id task) hB (listChunks max_batch texts) ([], [])
  simp only [List.length_nil, Nat.zero_add] at hfold
  rw [hsum] at hfold
  refine ⟨((listChunks max_batch texts).foldl
      (embedChunkStep encode backend max_length (get_task_id task))
      ([], [])).1.enum.map (fun p => { vector := p.2, index := p.1 }),
    ?_, ?_, ?_⟩
  · simp [create_embeddings, hnemp]
  · simp only [List.length_map, List.enum_length]
    exact hfold
  · rw [List.map_map]
    have hproj : ((fun m : EmbeddingModel V => m.index)
        ∘ (fun p : Nat × V => ({ vector := p.2, index := p.1 } : EmbeddingModel V)))
        = Prod.fst := rfl
    rw [hproj, List.enum_map_fst, hfold]

theorem create_embeddings_indices_witness :
    (["a", "b", "c"] ≠ ([] : List String)) ∧ 1 ≤ 2
    ∧ (∀ (ids mask : List (List Int)) (t : Int),
        (wBackendEmbed ids mask t).length = ids.length)
    ∧ ∃ ms, (create_embeddings wEncode wBackendEmbed 2 8 ["a", "b", "c"]
          "retrieval.query").1 = .ok ms
      ∧ ms.length = (["a", "b", "c"] : List String).length
      ∧ ms.map (fun m => m.index)
          = List.range (["a", "b", "c"] : List String).length :=
  ⟨by decide, by decide, fun ids mask t => by simp [wBackendEmbed],
   create_embeddings_indices wEncode wBackendEmbed 2 8 ["a", "b", "c"]
     "retrieval.query" (by decide) (by decide)
     (fun ids mask t => by simp [wBackendEmbed])⟩

/-- C7. `get_task_id` maps `retrieval.query` to 0, `retrieval.passage` to 1,
`separation` to 2, `classification` to 3, `text-matching` to 4, and every
string not named in `TASK_MAPPING` to 0 (the same id as `retrieval.query`),
never an error. -/
theorem get_task_id_mapping :
    get_task_id "retrieval.query" = 0 ∧ get_task_id "retrieval.passage" = 1
    ∧ get_task_id "separation" = 2 ∧ get_task_id "classification" = 3
    ∧ get_task_id "text-matching" = 4
    ∧ ∀ t : String, (∀ p ∈ TASK_MAPPING, p.1 ≠ t) → get_task_id t = 0 := by
  refine ⟨by decide, by decide, by decide, by decide, by decide, ?_⟩
  intro t ht
  have : TASK_MAPPING.find? (fun p => p.1 = t) = none := by
    rw [List.find?_eq_none]
    intro p hp
    simpa using ht p hp
  simp [get_task_id, this]

theorem get_task_id_mapping_witness :
    get_task_id "retrieval.query" = 0 ∧ get_task_id "retrieval.passage" = 1
    ∧ get_task_id "separation" = 2 ∧ get_task_id "classification" = 3
    ∧ get_task_id "text-matching" = 4 ∧ get_task_id "no-such-task" = 0 := by
  obtain ⟨h0, h1, h2, h3, h4, h5⟩ := get_task_id_mapping
  exact ⟨h0, h1, h2, h3, h4, h5 "no-such-task" (by decide)⟩

/-- C6. `create_embeddings` on an empty text list and `rerank_documents` on an
empty document list fail with a `Validation` error while performing no
effect at all: no tokenization and no backend call (the recorded effect
trace is empty). -/
theorem empty_input_validation_no_effects {V α : Type}
    (encode : String → List Int × List Int)
    (backendE : List (List Int) → List (List Int) → Int → List V)
    (backendS : List (List Int) → List (List Int) → List α)
    (cmp : α → α → Option Ordering)
    (max_batch max_length : Nat) (task query : String)
    (top_n : Option Nat) (return_documents : Bool) :
    create_embeddings encode backendE max_batch max_length [] task
      = (.error (.Validation "Text input cannot be empty"), [])
    ∧ rerank_documents cmp encode backendS max_length query [] top_n return_documents
      = (.error (.Validation "Documents cannot be empty"), []) :=
  ⟨rfl, rfl⟩

/-- C8 counterexample. A probe failure is NOT converted to `Ok(false)` by
`is_ready` itself: with a failing liveness probe, `is_ready` returns the
error (the `?` operator propagates it to the caller), refuting the claim
that a probe failure is never propagated as an error to the caller of
`is_ready`. -/
theorem is_ready_propagates_probe_error :
    is_ready (.error (.TritonConnection "connection refused")) (.ok true)
      = .error (.TritonConnection "connection refused") := rfl

/-- C8 amended. `is_ready` returns the logical AND of the two probes when
both succeed, and propagates any probe failure as an error to its caller;
the swallowing happens one level up: `health_check` computes each service's
readiness as `is_ready().await.unwrap_or(false)`, so at the health endpoint
any probe failure is reported as `ready = false` and never raises. -/
theorem is_ready_and_health_check :
    (∀ a b : Bool, is_ready (.ok a) (.ok b) = .ok (a && b))
    ∧ (∀ (e : AppError) (p : Except AppError Bool),
        is_ready (.error e) p = .error e)
    ∧ (∀ (a : Bool) (e : AppError), is_ready (.ok a) (.error e) = .error e)
    ∧ (∀ (e : AppError) (p : Except AppError Bool),
        health_check_ready (.error e) p = false)
    ∧ (∀ (a : Bool) (e : AppError),
        health_check_ready (.ok a) (.error e) = false)
    ∧ (∀ a b : Bool, health_check_ready (.ok a) (.ok b) = (a && b)) := by
  refine ⟨fun a b => rfl, fun e p => rfl, fun a e => rfl, fun e p => rfl,
    fun a e => rfl, fun a b => rfl⟩

/-- C9 counterexample. With the tokenizer source unset, both loaders fail
with the `Tokenization` constructor of `AppError` — the same error class
used for per-request encode failures — not with any distinct
configuration-error class (`AppError` has no such variant). -/
theorem load_tokenizer_unset_is_tokenization_error :
    load_embedding_tokenizer none
      = .error (.Tokenization "TOKENIZER_FILE not configured")
    ∧ load_reranker_tokenizer none
      = .error (.Tokenization "RERANKER_TOKENIZER_FILE not configured") :=
  ⟨rfl, rfl⟩

/-- C9 amended. When the configured tokenizer source is unset, tokenizer
loading fails with an error, but that error is a `Tokenization`-class
`AppError` — the error taxonomy defines no separate configuration-error
class, so the failure is not distinguishable by class from per-request
tokenization failures. -/
theorem load_tokenizer_unset_fails :
    (∃ msg, load_embedding_tokenizer none = .error (.Tokenization msg))
    ∧ (∃ msg, load_reranker_tokenizer none = .error (.Tokenization msg)) :=
  ⟨⟨"TOKENIZER_FILE not configured", rfl⟩,
   ⟨"RERANKER_TOKENIZER_FILE not configured", rfl⟩⟩

/-- C2. For every non-empty document list, with one (NaN-free, modelled
rational) backend score per document, the list returned by
`rerank_documents` is sorted non-increasing by `relevance_score`
(`rerankDescRel`); with `top_n = none` all `N` documents are returned; with
`top_n = some k` the result is exactly the first `k` entries of the fully
sorted list — hence exactly `k` entries when `k < N`, and all `N` when
`k ≥ N`. -/
theorem rerank_documents_sorted (encode : String → List Int × List Int)
    (backend : List (List Int) → List (List Int) → List ℚ)
    (max_length : Nat) (query : String) (documents : List String)
    (return_documents : Bool)
    (hne : documents ≠ [])
    (hlen : (backend (tokenize_for_reranking encode max_length query documents).1
        (tokenize_for_reranking encode max_length query documents).2).length
      = documents.length) :
    ∃ full,
      (rerank_documents ratPcmp encode backend max_length query documents
          none return_documents).1 = .ok full
      ∧ full.Pairwise rerankDescRel
      ∧ full.length = documents.length
      ∧ (∀ k, (rerank_documents ratPcmp encode backend max_length query
          documents (some k) return_documents).1 = .ok (full.take k))
      ∧ (∀ k, k ≤ documents.length → (full.take k).length = k)
      ∧ (∀ k, documents.length ≤ k → full.take k = full) := by
  have hnemp : documents.isEmpty = false := List.isEmpty_eq_false.mpr hne
  obtain ⟨hnone, hsome⟩ := rerank_sort_and_truncate_rat documents
    (backend (tokenize_for_reranking encode max_length query documents).1
             (tokenize_for_reranking encode max_length query documents).2)
    return_documents
  have hflen : (List.insertionSort rerankDescRel
      (rerankResults documents
        (backend (tokenize_for_reranking encode max_length query documents).1
                 (tokenize_for_reranking encode max_length query documents).2)
        return_documents)).length = documents.length := by
    rw [List.length_insertionSort, rerankResults_length, hlen]
  refine ⟨List.insertionSort rerankDescRel
      (rerankResults documents
        (backend (tokenize_for_reranking encode max_length query documents).1
                 (tokenize_for_reranking encode max_length query documents).2)
        return_documents), ?_, ?_, hflen, ?_, ?_, ?_⟩
  · rw [rerank_documents_fst ratPcmp encode backend max_length query documents
      none return_documents hnemp]
    exact hnone
  · exact List.sorted_insertionSort rerankDescRel _
  · intro k
    rw [rerank_documents_fst ratPcmp encode backend max_length query documents
      (some k) return_documents hnemp]
    exact hsome k
  · intro k hkle
    rw [List.length_take, hflen]
    omega
  · intro k hk
    exact List.take_of_length_le (by rw [hflen]; exact hk)

theorem rerank_documents_sorted_witness :
    (["d1", "d2"] ≠ ([] : List String))
    ∧ ((wBackendScore (tokenize_for_reranking wEncode 8 "q" ["d1", "d2"]).1
        (tokenize_for_reranking wEncode 8 "q" ["d1", "d2"]).2).length
        = (["d1", "d2"] : List String).length)
    ∧ ∃ full,
      (rerank_documents ratPcmp wEncode wBackendScore 8 "q" ["d1", "d2"]
          none true).1 = .ok full
      ∧ full.Pairwise rerankDescRel
      ∧ full.length = (["d1", "d2"] : List String).length
      ∧ (∀ k, (rerank_documents ratPcmp wEncode wBackendScore 8 "q"
          ["d1", "d2"] (some k) true).1 = .ok (full.take k))
      ∧ (∀ k, k ≤ (["d1", "d2"] : List String).length → (full.take k).length = k)
      ∧ (∀ k, (["d1", "d2"] : List String).length ≤ k → full.take k = full) :=
  ⟨by decide, by decide,
   rerank_documents_sorted wEncode wBackendScore 8 "q" ["d1", "d2"] true
     (by decide) (by decide)⟩

theorem rerank_sort_and_truncate_json_ne_panicked (documents : List String)
    (scores : List JsonNum) (top_n : Option Nat) (return_documents : Bool) :
    rerank_sort_and_truncate jsonPcmp documents scores top_n return_documents
      ≠ .panicked := by
  unfold rerank_sort_and_truncate
  rw [sortO_total_eq _ jsonLeRel rerankLe_jsonPcmp]
  cases top_n <;> simp

/-- C10. Relevance scores reach the sort only through the JSON decode of the
backend response (`TritonOutputData.data : Vec<f32>`), and the JSON number
grammar has no NaN token (type `JsonNum`: finite decimal or saturated
infinity), so the `partial_cmp(...).unwrap()` comparator always receives
comparable values and the descending sort in `rerank_documents` never
panics — for every decodable backend score list and every request. -/
theorem rerank_sort_no_panic (encode : String → List Int × List Int)
    (backend : List (List Int) → List (List Int) → List JsonNum)
    (max_length : Nat) (query : String) (documents : List String)
    (top_n : Option Nat) (return_documents : Bool) :
    (∀ a b : JsonNum, (jsonPcmp a b).isSome = true)
    ∧ (rerank_documents jsonPcmp encode backend max_length query documents
        top_n return_documents).1 ≠ .panicked := by
  constructor
  · intro a b
    obtain ⟨o, ho⟩ := jsonPcmp_isSome a b
    simp [ho]
  · by_cases h : documents.isEmpty = true
    · simp [rerank_documents, h]
    · have hf : documents.isEmpty = false := by simpa using h
      rw [rerank_documents_fst jsonPcmp encode backend max_length query
        documents top_n return_documents hf]
      exact rerank_sort_and_truncate_json_ne_panicked _ _ _ _

/-- C5. For rectangular inputs (every id row and every mask row has the
length of the first id row, one mask row per id row), every named tensor of
the wire request built on the embedding path has a declared shape whose
product equals its flattened data length — `input_ids` and `attention_mask`
with shape `[batch_size, seq_length]`, `task_id` with shape
`[batch_size, 1]` — and the reranking-path request carries exactly the two
tensors `input_ids` and `attention_mask` (no `task_id`), again with shape
product equal to data length. -/
theorem infer_request_shapes (input_ids attention_mask : List (List Int))
    (task_id : Int)
    (hrect : ∀ r ∈ input_ids, r.length = (input_ids.headD []).length)
    (hmrect : ∀ r ∈ attention_mask, r.length = (input_ids.headD []).length)
    (hcount : attention_mask.length = input_ids.length) :
    ((embedding_infer_request input_ids attention_mask task_id).inputs.map
        (fun i => i.name) = ["input_ids", "attention_mask", "task_id"])
    ∧ ((embedding_infer_request input_ids attention_mask task_id).inputs.map
        (fun i => i.shape)
        = [[input_ids.length, (input_ids.headD []).length],
           [input_ids.length, (input_ids.headD []).length],
           [input_ids.length, 1]])
    ∧ (∀ i ∈ (embedding_infer_request input_ids attention_mask task_id).inputs,
        i.shape.prod = i.data.length)
    ∧ ((scores_infer_request input_ids attention_mask).inputs.map
        (fun i => i.name) = ["input_ids", "attention_mask"])
    ∧ ((scores_infer_request input_ids attention_mask).inputs.map
        (fun i => i.shape)
        = [[input_ids.length, (input_ids.headD []).length],
           [input_ids.length, (input_ids.headD []).length]])
    ∧ (∀ i ∈ (scores_infer_request input_ids attention_mask).inputs,
        i.shape.prod = i.data.length) := by
  have hidflat : input_ids.flatten.length
      = input_ids.length * (input_ids.headD []).length :=
    flatten_length_rect _ _ hrect
  have hmflat : attention_mask.flatten.length
      = attention_mask.length * (input_ids.headD []).length :=
    flatten_length_rect _ _ hmrect
  refine ⟨rfl, rfl, ?_, rfl, rfl, ?_⟩
  · intro i hi
    simp only [embedding_infer_request, List.mem_cons,
      List.not_mem_nil, or_false] at hi
    rcases hi with rfl | rfl | rfl
    · simp [hidflat]
    · simp [hmflat, hcount]
    · simp
  · intro i hi
    simp only [scores_infer_request, List.mem_cons,
      List.not_mem_nil, or_false] at hi
    rcases hi with rfl | rfl
    · simp [hidflat]
    · simp [hmflat, hcount]

theorem infer_request_shapes_witness :
    (∀ r ∈ [[(1:Int), 2], [3, 4]], r.length = (([[(1:Int), 2], [3, 4]] : List (List Int)).headD []).length)
    ∧ (∀ r ∈ [[(1:Int), 1], [1, 0]], r.length = (([[(1:Int), 2], [3, 4]] : List (List Int)).headD []).length)
    ∧ ([[(1:Int), 1], [1, 0]] : List (List Int)).length = ([[(1:Int), 2], [3, 4]] : List (List Int)).length
    ∧ (((embedding_infer_request [[1, 2], [3, 4]] [[1, 1], [1, 0]] 2).inputs.map
        (fun i => i.name) = ["input_ids", "attention_mask", "task_id"])
    ∧ ((embedding_infer_request [[1, 2], [3, 4]] [[1, 1], [1, 0]] 2).inputs.map
        (fun i => i.shape) = [[2, 2], [2, 2], [2, 1]])
    ∧ (∀ i ∈ (embedding_infer_request [[1, 2], [3, 4]] [[1, 1], [1, 0]] 2).inputs,
        i.shape.prod = i.data.length)
    ∧ ((scores_infer_request [[1, 2], [3, 4]] [[1, 1], [1, 0]]).inputs.map
        (fun i => i.name) = ["input_ids", "attention_mask"])
    ∧ ((scores_infer_request [[1, 2], [3, 4]] [[1, 1], [1, 0]]).inputs.map
        (fun i => i.shape) = [[2, 2], [2, 2]])
    ∧ (∀ i ∈ (scores_infer_request [[1, 2], [3, 4]] [[1, 1], [1, 0]]).inputs,
        i.shape.prod = i.data.length)) :=
  ⟨by decide, by decide, by decide,
   infer_request_shapes [[1, 2], [3, 4]] [[1, 1], [1, 0]] 2
     (by decide) (by decide) (by decide)⟩

end EmbedRust
